/-
Verification of the ShoFit scraper core (size-chart extraction and size
recommendation pipeline) against its natural-language specification.

The definitions below are a shallow embedding of the Node.js server found in
the repository (scrapeSizeChart, parseTable, parseStructuredText,
extractSizeChartWithAI, getSizeRecommendation, and the Express handlers for
POST /scrape-size-chart and POST /recommend-size).

Modelling conventions:
* JavaScript runtime values flowing through the pipeline are modelled by the
  inductive type `Json` (JS objects are insertion-ordered association lists
  with overwrite-in-place assignment; integer-like-key reordering of JS
  objects is not modelled, and no key used by this code is integer-like).
* The HTML document is modelled by `Doc`: exactly the observations the source
  makes on the cheerio document — the list of `<table>` elements (their full
  text and their tr/cell grid), the `$('[class*="size"], [id*="size"],
  [class*="chart"], [id*="chart"]')` selection (each element's text and its
  descendant tables), and the body text.
* Network effects are explicit parameters: the page fetch is a
  `FetchOutcome`, a generative-model round trip is a `ModelOutcome`; the
  GEMINI_API_KEY environment variable is an `Option String` (`none` = unset).
* JS regular expressions used by the source are hand-compiled to
  special-purpose matchers.  Each matcher carries a comment with the source
  pattern and, where the generic backtracking search is simplified, the
  character-set disjointness argument making the simplification exact.
* Numbers inside parsed JSON are kept as their lexemes (`Json.num lex`);
  nothing in the verified claims compares parsed numeric values.
* `Char.toLower` models JS toLowerCase / the `i` regex flag; all text under
  consideration is ASCII, where the two coincide.
-/
import Mathlib

set_option autoImplicit false

namespace ShoFit

/-! ## Small string utilities -/

/-- Whitespace recognized by JS `\s` (common ASCII subset; the exotic Unicode
space characters never occur in the inputs considered here). -/
def isJsWs (c : Char) : Bool :=
  c = ' ' || c = '\t' || c = '\n' || c = '\r' || c = '\x0b' || c = '\x0c'

/-- JS `String.prototype.trim` (same whitespace model). -/
def trimChars (cs : List Char) : List Char :=
  ((cs.dropWhile isJsWs).reverse.dropWhile isJsWs).reverse

def trimStr (s : String) : String :=
  String.mk (trimChars s.data)

def lowerChars (cs : List Char) : List Char :=
  cs.map Char.toLower

/-- JS `String.prototype.toLowerCase` (ASCII model). -/
def lowerStr (s : String) : String :=
  String.mk (lowerChars s.data)

/-- Does `hay` start with `needle`? -/
def startsWithChars : List Char → List Char → Bool
  | _, [] => true
  | [], _ :: _ => false
  | h :: hs, n :: ns => h = n && startsWithChars hs ns

/-- Case-insensitive `startsWithChars` (both sides lowered). -/
def startsWithFold (hay needle : List Char) : Bool :=
  startsWithChars (lowerChars hay) (lowerChars needle)

/-- JS `String.prototype.includes` on char lists. -/
def containsChars : List Char → List Char → Bool
  | [], needle => needle.isEmpty
  | hay@(_ :: rest), needle =>
    startsWithChars hay needle || containsChars rest needle

def strIncludes (hay needle : String) : Bool :=
  containsChars hay.data needle.data

/-- JS `String.prototype.substring(0, n)`. -/
def strTake (n : Nat) (s : String) : String :=
  String.mk (s.data.take n)

theorem length_dropWhile_le {α : Type} (p : α → Bool) :
    ∀ l : List α, (l.dropWhile p).length ≤ l.length
  | [] => Nat.le_refl _
  | a :: l => by
    by_cases h : p a = true
    · simp only [List.dropWhile_cons, h, if_true]
      exact Nat.le_succ_of_le (length_dropWhile_le p l)
    · simp [List.dropWhile_cons, h]

/-- JS `replace(/\s+/g, ' ')`: collapse every whitespace run to one space. -/
def collapseWsChars : List Char → List Char
  | [] => []
  | c :: rest =>
    if isJsWs c then
      ' ' :: collapseWsChars (rest.dropWhile isJsWs)
    else
      c :: collapseWsChars rest
termination_by cs => cs.length
decreasing_by
  · simp only [List.length_cons]
    exact Nat.lt_succ_of_le (length_dropWhile_le _ _)
  · simp

def collapseWsStr (s : String) : String :=
  String.mk (collapseWsChars s.data)

/-! ## The JS value model -/

/-- JavaScript values produced by `JSON.parse` and by the object literals of
the source.  Objects are insertion-ordered association lists. -/
inductive Json where
  | null
  | bool (b : Bool)
  | num (lex : String)
  | str (s : String)
  | arr (elems : List Json)
  | obj (fields : List (String × Json))
  deriving Repr

mutual

def Json.beq : Json → Json → Bool
  | .null, .null => true
  | .bool a, .bool b => a = b
  | .num a, .num b => a = b
  | .str a, .str b => a = b
  | .arr a, .arr b => Json.beqList a b
  | .obj a, .obj b => Json.beqFields a b
  | _, _ => false

def Json.beqList : List Json → List Json → Bool
  | [], [] => true
  | a :: as, b :: bs => Json.beq a b && Json.beqList as bs
  | _, _ => false

def Json.beqFields : List (String × Json) → List (String × Json) → Bool
  | [], [] => true
  | (ka, va) :: as, (kb, vb) :: bs => ka = kb && Json.beq va vb && Json.beqFields as bs
  | _, _ => false

end

mutual

theorem Json.beq_iff : ∀ a b : Json, Json.beq a b = true ↔ a = b
  | .null, .null => by simp [Json.beq]
  | .bool _, .bool _ => by simp [Json.beq]
  | .num _, .num _ => by simp [Json.beq]
  | .str _, .str _ => by simp [Json.beq]
  | .arr a, .arr b => by
    simp only [Json.beq, Json.beqList_iff a b, arr.injEq]
  | .obj a, .obj b => by
    simp only [Json.beq, Json.beqFields_iff a b, obj.injEq]
  | .null, .bool _ | .null, .num _ | .null, .str _ | .null, .arr _ | .null, .obj _
  | .bool _, .null | .bool _, .num _ | .bool _, .str _ | .bool _, .arr _ | .bool _, .obj _
  | .num _, .null | .num _, .bool _ | .num _, .str _ | .num _, .arr _ | .num _, .obj _
  | .str _, .null | .str _, .bool _ | .str _, .num _ | .str _, .arr _ | .str _, .obj _
  | .arr _, .null | .arr _, .bool _ | .arr _, .num _ | .arr _, .str _ | .arr _, .obj _
  | .obj _, .null | .obj _, .bool _ | .obj _, .num _ | .obj _, .str _ | .obj _, .arr _ => by
    simp [Json.beq]

theorem Json.beqList_iff : ∀ a b : List Json, Json.beqList a b = true ↔ a = b
  | [], [] => by simp [Json.beqList]
  | [], _ :: _ => by simp [Json.beqList]
  | _ :: _, [] => by simp [Json.beqList]
  | a :: as, b :: bs => by
    simp [Json.beqList, Json.beq_iff a b, Json.beqList_iff as bs]

theorem Json.beqFields_iff :
    ∀ a b : List (String × Json), Json.beqFields a b = true ↔ a = b
  | [], [] => by simp [Json.beqFields]
  | [], _ :: _ => by simp [Json.beqFields]
  | _ :: _, [] => by simp [Json.beqFields]
  | (ka, va) :: as, (kb, vb) :: bs => by
    simp [Json.beqFields, Json.beq_iff va vb, Json.beqFields_iff as bs, and_assoc,
      Prod.ext_iff]

end

instance : DecidableEq Json := fun a b =>
  decidable_of_iff (Json.beq a b = true) (Json.beq_iff a b)

/-- Does a JSON number lexeme denote zero (`0`, `-0`, `0.000`, `0e9`, ...)?
Used for JS truthiness of numbers. -/
def numLexIsZero (lex : String) : Bool :=
  let cs := if lex.data.head? = some '-' then lex.data.drop 1 else lex.data
  let mantissa := cs.takeWhile (fun c => c.isDigit || c = '.')
  mantissa.all (fun c => c = '0' || c = '.')

/-- JS truthiness of a runtime value. -/
def jsTruthy : Json → Bool
  | .null => false
  | .bool b => b
  | .num lex => !numLexIsZero lex
  | .str s => !s.isEmpty
  | .arr _ => true
  | .obj _ => true

/-- JS property read `v[key]`; `none` models `undefined` (also the result of
reading a named property off a non-object primitive/array in this code). -/
def jsField : Json → String → Option Json
  | .obj fields, key => fields.lookup key
  | _, _ => none

/-- Truthiness of a possibly-`undefined` value. -/
def jsTruthyOpt : Option Json → Bool
  | none => false
  | some v => jsTruthy v

/-- JS object assignment `o[key] = v`: overwrite in place if the key exists,
otherwise append. -/
def objSet {α : Type} (fields : List (String × α)) (key : String) (v : α) :
    List (String × α) :=
  match fields with
  | [] => [(key, v)]
  | (k, w) :: rest =>
    if k = key then (k, v) :: rest else (k, w) :: objSet rest key v

/-! ## `JSON.parse`

A recursive-descent decoder for the JSON grammar, mirroring ECMAScript
`JSON.parse` (which the source calls on the spans extracted from model
replies).  `none` models a thrown `SyntaxError`.  `fuel` strictly decreases on
every call; the initial budget in `jsonParse` dominates the total number of
grammar steps, which is linear in the input length. -/

/-- JSON insignificant whitespace. -/
def isJsonWs (c : Char) : Bool :=
  c = ' ' || c = '\t' || c = '\n' || c = '\r'

def skipJsonWs (cs : List Char) : List Char :=
  cs.dropWhile isJsonWs

def hexDigitVal (c : Char) : Option Nat :=
  if '0' ≤ c ∧ c ≤ '9' then some (c.toNat - '0'.toNat)
  else if 'a' ≤ c ∧ c ≤ 'f' then some (c.toNat - 'a'.toNat + 10)
  else if 'A' ≤ c ∧ c ≤ 'F' then some (c.toNat - 'A'.toNat + 10)
  else none

/-- Decode `\uXXXX`.  JS strings are UTF-16 and admit lone surrogates; Lean
`Char` does not, so a lone surrogate is modelled by U+FFFD.  No verified claim
involves a `\u` escape. -/
def jsonUnicodeChar (n : Nat) : Char :=
  if n.isValidChar then Char.ofNat n else '�'

/-- Body of a JSON string after the opening quote: returns the decoded string
and the text following the closing quote. -/
def jsonStringBody (fuel : Nat) (cs : List Char) : Option (List Char × List Char) :=
  match fuel, cs with
  | 0, _ => none
  | _, [] => none
  | fuel + 1, c :: rest =>
    if c = '"' then some ([], rest)
    else if c = '\\' then
      match rest with
      | [] => none
      | e :: rest2 =>
        let decoded : Option (Char × List Char) :=
          if e = '"' then some ('"', rest2)
          else if e = '\\' then some ('\\', rest2)
          else if e = '/' then some ('/', rest2)
          else if e = 'b' then some ('\x08', rest2)
          else if e = 'f' then some ('\x0c', rest2)
          else if e = 'n' then some ('\n', rest2)
          else if e = 'r' then some ('\r', rest2)
          else if e = 't' then some ('\t', rest2)
          else if e = 'u' then
            match rest2 with
            | h1 :: h2 :: h3 :: h4 :: rest3 =>
              match hexDigitVal h1, hexDigitVal h2, hexDigitVal h3, hexDigitVal h4 with
              | some a, some b, some c2, some d =>
                some (jsonUnicodeChar (a * 4096 + b * 256 + c2 * 16 + d), rest3)
              | _, _, _, _ => none
            | _ => none
          else none
        match decoded with
        | none => none
        | some (ch, rest3) =>
          match jsonStringBody fuel rest3 with
          | none => none
          | some (tail, restF) => some (ch :: tail, restF)
    else if c.toNat < 0x20 then none
    else
      match jsonStringBody fuel rest with
      | none => none
      | some (tail, restF) => some (c :: tail, restF)

/-- Lex a JSON number per the grammar
`-? (0 | [1-9][0-9]*) (\.[0-9]+)? ([eE][+-]?[0-9]+)?`;
returns the lexeme and the rest. -/
def jsonNumberLex (cs : List Char) : Option (List Char × List Char) :=
  let (sign, cs1) :=
    match cs with
    | '-' :: rest => (['-'], rest)
    | _ => (([] : List Char), cs)
  match cs1 with
  | [] => none
  | c :: _ =>
    if ¬ c.isDigit then none
    else
      let (intPart, cs2) : List Char × List Char :=
        if c = '0' then (['0'], cs1.drop 1)
        else (cs1.takeWhile Char.isDigit, cs1.dropWhile Char.isDigit)
      let (fracPart, cs3) : List Char × List Char :=
        match cs2 with
        | '.' :: d :: _ =>
          if d.isDigit then
            ('.' :: (cs2.drop 1).takeWhile Char.isDigit,
              (cs2.drop 1).dropWhile Char.isDigit)
          else ([], cs2)
        | _ => ([], cs2)
      let expParse : Option (List Char × List Char) :=
        match cs3 with
        | e :: cs4 =>
          if e = 'e' ∨ e = 'E' then
            let (esign, cs5) :=
              match cs4 with
              | '+' :: rest => (['+'], rest)
              | '-' :: rest => (['-'], rest)
              | _ => (([] : List Char), cs4)
            match cs5 with
            | d :: _ =>
              if d.isDigit then
                some (e :: esign ++ cs5.takeWhile Char.isDigit,
                  cs5.dropWhile Char.isDigit)
              else none
            | [] => none
          else some ([], cs3)
        | [] => some ([], cs3)
      match expParse with
      | none => none
      | some (expPart, rest) => some (sign ++ intPart ++ fracPart ++ expPart, rest)

mutual

/-- Parse one JSON value (leading whitespace allowed). -/
def jsonValue (fuel : Nat) (cs : List Char) : Option (Json × List Char) :=
  match fuel with
  | 0 => none
  | fuel + 1 =>
    match skipJsonWs cs with
    | [] => none
    | c :: rest =>
      if c = '{' then
        match skipJsonWs rest with
        | '}' :: rest2 => some (.obj [], rest2)
        | rest2 => jsonMembers fuel rest2 []
      else if c = '[' then
        match skipJsonWs rest with
        | ']' :: rest2 => some (.arr [], rest2)
        | rest2 => jsonElements fuel rest2 []
      else if c = '"' then
        match jsonStringBody (rest.length + 1) rest with
        | none => none
        | some (s, rest2) => some (.str (String.mk s), rest2)
      else if c = 't' then
        if startsWithChars (c :: rest) ['t', 'r', 'u', 'e'] then
          some (.bool true, rest.drop 3)
        else none
      else if c = 'f' then
        if startsWithChars (c :: rest) ['f', 'a', 'l', 's', 'e'] then
          some (.bool false, rest.drop 4)
        else none
      else if c = 'n' then
        if startsWithChars (c :: rest) ['n', 'u', 'l', 'l'] then
          some (.null, rest.drop 3)
        else none
      else
        match jsonNumberLex (c :: rest) with
        | none => none
        | some (lex, rest2) => some (.num (String.mk lex), rest2)

/-- Members of an object, after `{` (first key expected next); `acc` holds the
fields read so far.  Duplicate keys overwrite in place, as in JS. -/
def jsonMembers (fuel : Nat) (cs : List Char) (acc : List (String × Json)) :
    Option (Json × List Char) :=
  match fuel with
  | 0 => none
  | fuel + 1 =>
    match skipJsonWs cs with
    | '"' :: rest =>
      match jsonStringBody (rest.length + 1) rest with
      | none => none
      | some (key, rest2) =>
        match skipJsonWs rest2 with
        | ':' :: rest3 =>
          match jsonValue fuel rest3 with
          | none => none
          | some (v, rest4) =>
            let acc2 := objSet acc (String.mk key) v
            match skipJsonWs rest4 with
            | ',' :: rest5 => jsonMembers fuel rest5 acc2
            | '}' :: rest5 => some (.obj acc2, rest5)
            | _ => none
        | _ => none
    | _ => none

/-- Elements of an array, after `[` (first element expected next). -/
def jsonElements (fuel : Nat) (cs : List Char) (acc : List Json) :
    Option (Json × List Char) :=
  match fuel with
  | 0 => none
  | fuel + 1 =>
    match jsonValue fuel cs with
    | none => none
    | some (v, rest) =>
      match skipJsonWs rest with
      | ',' :: rest2 => jsonElements fuel rest2 (acc ++ [v])
      | ']' :: rest2 => some (.arr (acc ++ [v]), rest2)
      | _ => none

end

/-- `JSON.parse`: whole input must be one JSON value plus whitespace.  The
fuel budget `4 * length + 8` dominates the recursion depth of the grammar
walk (every nesting step and every list step consumes input). -/
def jsonParse (cs : List Char) : Option Json :=
  match jsonValue (4 * cs.length + 8) cs with
  | none => none
  | some (v, rest) => if (skipJsonWs rest).isEmpty then some v else none

/-- `text.match(/\{[\s\S]*\}/)`: the span from the first `\x7b` to the last
`\x7d` after it (greedy star), or `none` when no such span exists. -/
def extractJsonSpan (cs : List Char) : Option (List Char) :=
  let fromBrace := cs.dropWhile (fun c => c ≠ '{')
  match fromBrace with
  | [] => none
  | _ :: tail =>
    let revTrimmed := tail.reverse.dropWhile (fun c => c ≠ '}')
    match revTrimmed with
    | [] => none
    | _ => '{' :: revTrimmed.reverse

/-! ## Size charts and the two structural extractors -/

/-- One table row of the chart: a JS record mapping header names to trimmed
cell strings, in insertion order. -/
abbrev Row := List (String × String)

/-- The SizeChart value built by the structural extractors. -/
structure Chart where
  headers : List String
  rows : List Row
  deriving Repr, DecidableEq

/-- The canonical "not found" chart `{headers: [], rows: []}` as a JS value. -/
def emptyChartJson : Json :=
  .obj [("headers", .arr []), ("rows", .arr [])]

/-- A `Chart` as the JS value `{headers: [...], rows: [{...}, ...]}`. -/
def chartToJson (c : Chart) : Json :=
  .obj [("headers", .arr (c.headers.map .str)),
        ("rows", .arr (c.rows.map (fun r => .obj (r.map (fun p => (p.1, .str p.2))))))]

/-- A `<table>` element, reduced to the two observations the source makes of
it: its full text content (for the keyword test) and its `tr` grid in
document order, each row the list of its `th`/`td` cell texts.  Tables are
taken to have no nested tables inside their cells. -/
structure Table where
  cells : List (List String)
  text : String
  deriving Repr

/-- Header cells: `table.find('thead tr, tr').first()` is the first row in
document order; `headerRow.find('th, td')` is its cell list; each is trimmed. -/
def tableHeaders (t : Table) : List String :=
  (t.cells.headD []).map trimStr

/-- `headers[j] || 'column_' + j`: an out-of-range (`undefined`) or empty
(falsy) header falls back to the synthesized placeholder. -/
def tableRowKey (headers : List String) (j : Nat) : String :=
  let h := headers.getD j ""
  if h = "" then "column_" ++ toString j else h

/-- Build one row record: cells mapped positionally onto header names. -/
def tableRowData (headers : List String) (cells : List String) : Row :=
  cells.enum.foldl (fun acc p => objSet acc (tableRowKey headers p.1) (trimStr p.2)) []

/-- Data rows from a list of `tr` cell lists; a row yielding a record with
zero keys (a `tr` with no cells) is discarded. -/
def tableDataRows (headers : List String) (rowCells : List (List String)) : List Row :=
  rowCells.filterMap (fun cells =>
    let rd := tableRowData headers cells
    if rd.isEmpty then none else some rd)

/-- `parseTable($, table)`.  First pass: rows from
`table.find('tbody tr, tr').slice(1)` — every `tr` matches the selector part
`tr`, so the (deduplicated, document-ordered) selection is all rows, and
`slice(1)` skips the header row.  Second (repair) pass, entered when the
first produced zero rows: `table.find('tr').slice(1)` — the same selection
and the same `slice(1)`. -/
def parseTable (t : Table) : Chart :=
  let headers := tableHeaders t
  let rows := tableDataRows headers (t.cells.drop 1)
  let rows2 := if rows.isEmpty then tableDataRows headers (t.cells.drop 1) else rows
  ⟨headers, rows2⟩

/-! ### The pattern-based text extractor (`parseStructuredText`) -/

/-- The canonical size-token order of the source. -/
def sizeTokens : List String :=
  ["XXS", "XS", "S", "M", "L", "XL", "XXL", "XXXL", "2XL", "3XL", "4XL"]

/-- The per-token pattern is built as
`new RegExp(token + "[:\\s]+([^" + sizes.join('|') + "]+)", 'i')`: the
intended negated alternation is actually a negated character CLASS over the
characters of `"XXS|XS|S|M|L|XL|XXL|XXXL|2XL|3XL|4XL"`, i.e. the set
x, s, m, l, 2, 3, 4 and the pipe, matched case-insensitively. -/
def classExcluded (c : Char) : Bool :=
  let l := c.toLower
  l = 'x' || l = 's' || l = 'm' || l = 'l' || l = '|' || l = '2' || l = '3' || l = '4'

/-- The class `[:\s]`. -/
def isSepChar (c : Char) : Bool :=
  c = ':' || isJsWs c

/-- Backtracking of the greedy `[:\s]+` against the following `([^...]+)`:
with `m` separator characters available, try consuming `m, m-1, ..., 1`; the
capture then needs at least one class-allowed character.  (Separator
characters themselves are class-allowed, which is why smaller `m` can
succeed.)  Returns the capture group: the maximal run of allowed characters. -/
def sizeCaptureFrom (afterTok : List Char) : Nat → Option (List Char)
  | 0 => none
  | m + 1 =>
    let tail := afterTok.drop (m + 1)
    match tail with
    | c :: _ =>
      if classExcluded c then sizeCaptureFrom afterTok m
      else some (tail.takeWhile (fun c => !classExcluded c))
    | [] => sizeCaptureFrom afterTok m

/-- Try the token pattern anchored at the start of `text`. -/
def sizeCaptureHere (token text : List Char) : Option (List Char) :=
  if startsWithFold text token then
    let afterTok := text.drop token.length
    sizeCaptureFrom afterTok (afterTok.takeWhile isSepChar).length
  else none

/-- Leftmost match of `token[:\s]+([^...]+)` (flag `i`): scan start positions
left to right. -/
def sizeCapture (token : List Char) (text : List Char) : Option (List Char) :=
  match text with
  | [] => sizeCaptureHere token []
  | _ :: rest =>
    match sizeCaptureHere token text with
    | some cap => some cap
    | none => sizeCapture token rest

/-- The character class `[-â€“]` of the measurement patterns, as it stands in
the source file (a UTF-8 en dash read back in a single-byte encoding): the
characters `-`, `â`, `€`, `“`. -/
def isDashClass (c : Char) : Bool :=
  c = '-' || c = 'â' || c = '€' || c = '“'

/-- Try `name[:\s]*(\d+[-â€“]?\d*)` (flag `i`) anchored at the start of
`text`.  `[:\s]*` must consume its maximal run (digits are not separators and
the units that follow in no pattern here, so no backtracking applies); the
capture is maximal digits, an optional dash-class character, then maximal
digits. -/
def measCaptureHere (name text : List Char) : Option (List Char) :=
  if startsWithFold text name then
    let afterSeps := (text.drop name.length).dropWhile isSepChar
    match afterSeps with
    | c :: _ =>
      if c.isDigit then
        let d1 := afterSeps.takeWhile Char.isDigit
        match afterSeps.dropWhile Char.isDigit with
        | d :: rest2 =>
          if isDashClass d then some (d1 ++ d :: rest2.takeWhile Char.isDigit)
          else some d1
        | [] => some d1
      else none
    | [] => none
  else none

/-- Leftmost match of the measurement pattern; returns capture group 1. -/
def measCapture (name : List Char) (text : List Char) : Option (List Char) :=
  match text with
  | [] => measCaptureHere name []
  | _ :: rest =>
    match measCaptureHere name text with
    | some cap => some cap
    | none => measCapture name rest

/-- The fixed header set of the structured-text extractor. -/
def structuredHeaders : List String :=
  ["Size", "Chest", "Waist", "Hip", "Shoulder"]

/-- `if (xMatch) rowData.X = xMatch[1]`. -/
def addMeas (row : Row) (key : String) (cap : Option (List Char)) : Row :=
  match cap with
  | some v => objSet row key (String.mk v)
  | none => row

/-- One iteration of the size loop: on a pattern match, collect the body-part
measurements found inside the captured span; emit the row only if some
measurement joined the `Size` key (`Object.keys(rowData).length > 1`). -/
def structuredRow (text : List Char) (size : String) : Option Row :=
  match sizeCapture size.data text with
  | none => none
  | some meas =>
    let row0 : Row := [("Size", size)]
    let row1 := addMeas row0 "Chest" (measCapture "chest".data meas)
    let row2 := addMeas row1 "Waist" (measCapture "waist".data meas)
    let row3 := addMeas row2 "Hip" (measCapture "hip".data meas)
    let row4 := addMeas row3 "Shoulder" (measCapture "shoulder".data meas)
    if row4.length > 1 then some row4 else none

/-- `parseStructuredText(text)`: rows accumulate in token-scan order. -/
def parseStructuredText (text : String) : Chart :=
  ⟨structuredHeaders, sizeTokens.filterMap (structuredRow text.data)⟩

/-! ### The whole-page last-resort pattern (strategy 3)

`allText.match(/size\s*(chart|guide)[^]*?(XS|S|M|L|XL|XXL|XXXL|0|2|4|6|8|10|12|14|16)[^]*?(\d+\.?\d*)\s*(cm|inch|")/gi)` -/

/-- The token alternatives of the strategy-3 pattern, in source order. -/
def s3Tokens : List String :=
  ["XS", "S", "M", "L", "XL", "XXL", "XXXL", "0", "2", "4", "6", "8", "10", "12", "14", "16"]

/-- `(\d+\.?\d*)\s*(cm|inch|")` anchored at the start; returns the consumed
length.  Backtracking inside `\d+\.?\d*` cannot help: every shorter split
leaves the next position on a digit or the dot, where `\s*` matches nothing
and no unit alternative can start, so the only viable end of the number is
maximal digits, then a dot (with its maximal digits) when immediately
present.  Likewise `\s*` must be maximal because no unit starts with
whitespace. -/
def s3NumUnitHere (text : List Char) : Option Nat :=
  match text with
  | [] => none
  | c :: _ =>
    if c.isDigit then
      let d1 := (text.takeWhile Char.isDigit).length
      let numLen :=
        match text.drop d1 with
        | '.' :: rest2 => d1 + 1 + (rest2.takeWhile Char.isDigit).length
        | _ => d1
      let afterNum := text.drop numLen
      let ws := (afterNum.takeWhile isJsWs).length
      let atUnit := afterNum.drop ws
      if startsWithFold atUnit "cm".data then some (numLen + ws + 2)
      else if startsWithFold atUnit "inch".data then some (numLen + ws + 4)
      else
        match atUnit with
        | '"' :: _ => some (numLen + ws + 1)
        | _ => none
    else none

/-- The lazy `[^]*?` before the measurement: the first position where the
number/unit tail matches; returns the consumed length including the skipped
span. -/
def s3TailScan (text : List Char) : Option Nat :=
  match text with
  | [] => none
  | _ :: rest =>
    match s3NumUnitHere text with
    | some n => some n
    | none => (s3TailScan rest).map (· + 1)

/-- The token alternation at the current position: alternatives are tried in
source order, and a continuation failure falls through to the next
alternative (regex backtracking). -/
def s3TokenHere (text : List Char) : List String → Option Nat
  | [] => none
  | tok :: toks =>
    if startsWithFold text tok.data then
      match s3TailScan (text.drop tok.length) with
      | some n => some (tok.length + n)
      | none => s3TokenHere text toks
    else s3TokenHere text toks

/-- The lazy `[^]*?` before the token: expand position by position, trying
the full alternation (with its continuation) at each. -/
def s3TokenScan (text : List Char) : Option Nat :=
  match text with
  | [] => none
  | _ :: rest =>
    match s3TokenHere text s3Tokens with
    | some n => some n
    | none => (s3TokenScan rest).map (· + 1)

/-- The full strategy-3 pattern anchored at the start of `text`: `size`, then
`\s*` (maximal: `chart`/`guide` begin with non-space characters), then
`chart|guide` (at most one alternative can match at a given position), then
the token/measurement tail.  Returns the length of the whole match. -/
def s3MatchHere (text : List Char) : Option Nat :=
  if startsWithFold text "size".data then
    let afterSize := text.drop 4
    let ws := (afterSize.takeWhile isJsWs).length
    let afterWs := afterSize.drop ws
    if startsWithFold afterWs "chart".data ∨ startsWithFold afterWs "guide".data then
      match s3TokenScan (afterWs.drop 5) with
      | some n => some (4 + ws + 5 + n)
      | none => none
    else none
  else none

/-- Global matching (`g` flag): find the leftmost match, record the matched
substring, resume right after its end.  Every match has length ≥ 9 (`size`
plus `chart`/`guide` at least), so a fuel of `length + 1` never runs out
before the text does. -/
def s3Scan (fuel : Nat) (text : List Char) : List (List Char) :=
  match fuel, text with
  | 0, _ => []
  | _, [] => []
  | fuel + 1, text@(_ :: rest) =>
    match s3MatchHere text with
    | some n => text.take n :: s3Scan fuel (text.drop n)
    | none => s3Scan fuel rest

/-- `Array.prototype.join(' ')`. -/
def joinSpace : List (List Char) → List Char
  | [] => []
  | [x] => x
  | x :: xs => x ++ ' ' :: joinSpace xs

/-! ## The document model and the extraction pipeline -/

/-- One element of the `$('[class*="size"], [id*="size"], [class*="chart"],
[id*="chart"]')` selection: its text content and its descendant tables
(`element.find('table')`) in document order. -/
structure SizeElem where
  text : String
  innerTables : List Table
  deriving Repr

/-- The observations `scrapeSizeChart` makes of the fetched page. -/
structure Doc where
  tables : List Table
  sizeElements : List SizeElem
  bodyText : String
  deriving Repr

/-- Outcome of one `model.generateContent` round trip: a thrown error (also
covering network failures) or the reply text. -/
inductive ModelOutcome where
  | err (msg : String)
  | ok (text : String)
  deriving Repr

/-- Outcome of the page fetch (`axios.get`): a thrown error — network error,
timeout, or non-success status — or the parsed document. -/
inductive FetchOutcome where
  | err (msg : String)
  | ok (doc : Doc)

/-- `!process.env.GEMINI_API_KEY`: unset or empty is falsy. -/
def jsFalsyKey : Option String → Bool
  | none => true
  | some s => s.isEmpty

/-- `extractSizeChartWithAI(pageText)`.  The page text only feeds the prompt,
so the reply parameter abstracts the whole round trip.  Every failure mode —
missing credential, model-call error, no JSON object in the reply, JSON
decode failure — is absorbed into the canonical empty chart; the function
never throws to its caller. -/
def extractSizeChartWithAI (apiKey : Option String) (reply : ModelOutcome) : Json :=
  if jsFalsyKey apiKey then emptyChartJson
  else
    match reply with
    | .err _ => emptyChartJson
    | .ok text =>
      match extractJsonSpan text.data with
      | none => emptyChartJson
      | some span =>
        match jsonParse span with
        | none => emptyChartJson
        | some j => j

/-- Strategy 1 (the HTML table scanner) over the document's tables.  The
keyword test on the lower-cased table text. -/
def tableKeywordMatch (t : Table) : Bool :=
  let text := lowerStr t.text
  strIncludes text "size" || strIncludes text "chest" || strIncludes text "waist" ||
    strIncludes text "hip" || strIncludes text "shoulder" || strIncludes text "measurement"

/-- The strategy-1 loop.  `sizeChart` is assigned on every keyword-matching
table; the loop breaks (also recording `rawText`) only when the parse has at
least one row, so with no successful break the last assignment stands and
`rawText` stays empty. -/
def tableStrategyAux : List Table → Option Chart × String
  | [] => (none, "")
  | t :: rest =>
    if tableKeywordMatch t then
      let c := parseTable t
      if !c.rows.isEmpty then (some c, lowerStr t.text)
      else
        let r := tableStrategyAux rest
        if r.1.isNone then (some c, "") else r
    else tableStrategyAux rest

/-- Strategy-2 candidate test: the lower-cased element text must contain
`size` and one of the unit hints `cm`, `inch`, or a double quote. -/
def elemQualifies (e : SizeElem) : Bool :=
  let text := lowerStr e.text
  strIncludes text "size" &&
    (strIncludes text "cm" || strIncludes text "inch" || strIncludes text "\"")

/-- The strategy-2 loop.  A qualifying element with a nested table breaks
unconditionally with that table's parse; otherwise the structured-text parse
is assigned (together with `rawText`) and the loop breaks only when it has at
least one row. -/
def sizeElemStrategyAux : List SizeElem → Option Chart × String
  | [] => (none, "")
  | e :: rest =>
    if elemQualifies e then
      let text := lowerStr e.text
      match e.innerTables with
      | t :: _ => (some (parseTable t), text)
      | [] =>
        let c := parseStructuredText text
        if !c.rows.isEmpty then (some c, text)
        else
          let r := sizeElemStrategyAux rest
          if r.1.isNone then (some c, text) else r
    else sizeElemStrategyAux rest

/-- Strategy 3: the global body-text pattern; on any match the joined matched
spans are fed to the structured-text extractor. -/
def bodyTextStrategy (bodyText : String) : Option Chart × String :=
  match s3Scan (bodyText.data.length + 1) bodyText.data with
  | [] => (none, "")
  | ms =>
    let joined := String.mk (joinSpace ms)
    (some (parseStructuredText joined), joined)

/-- The sequential strategy chain of `scrapeSizeChart` with its guards:
strategy 2 runs only when strategy 1 left `sizeChart` null, strategy 3 only
when strategies 1–2 left it null.  Whenever a later strategy runs, `rawText`
is still the empty string, so the pair resets exactly as in the source. -/
def chainState (d : Doc) : Option Chart × String :=
  let s1 := tableStrategyAux d.tables
  let s2 := if s1.1.isNone then sizeElemStrategyAux d.sizeElements else s1
  if s2.1.isNone then bodyTextStrategy d.bodyText else s2

/-- The `ExtractionResult` of the scraper.  `rawText` is absent on the error
path (the catch block builds its object without that field). -/
structure ExtractionResult where
  success : Bool
  sizeChart : Json
  rawText : Option String
  url : Json
  error : Option String
  deriving Repr

/-- The strategy-4 branch: page text collapsed and truncated to 5000
characters feeds the model; the returned value (always a truthy object, but
the source still writes `sizeChart || {headers: [], rows: []}`) becomes the
chart. -/
def aiBranchResult (url : Json) (d : Doc) (apiKey : Option String)
    (aiReply : ModelOutcome) : ExtractionResult :=
  let pageText := strTake 5000 (collapseWsStr d.bodyText)
  let sc := extractSizeChartWithAI apiKey aiReply
  ⟨true, if jsTruthy sc then sc else emptyChartJson, some (strTake 2000 pageText), url, none⟩

/-- `scrapeSizeChart(url)`.  A fetch failure is the only throwing statement
inside the try block (the strategies are pure and the AI extractor absorbs
its own errors), so the catch branch fires exactly on `FetchOutcome.err`.
Strategy 4 runs when the chain left `sizeChart` null or with zero rows. -/
def scrapeSizeChart (url : Json) (fetch : FetchOutcome) (apiKey : Option String)
    (aiReply : ModelOutcome) : ExtractionResult :=
  match fetch with
  | .err msg => ⟨false, emptyChartJson, none, url, some msg⟩
  | .ok d =>
    let s := chainState d
    match s.1 with
    | some c =>
      if c.rows.isEmpty then aiBranchResult url d apiKey aiReply
      else ⟨true, chartToJson c, some (strTake 2000 s.2), url, none⟩
    | none => aiBranchResult url d apiKey aiReply

/-! ### Which strategies run (the guards of the source, as predicates) -/

/-- Strategy 2 runs iff strategy 1 left `sizeChart` null. -/
def ranSizeElemScan (d : Doc) : Bool :=
  (tableStrategyAux d.tables).1.isNone

/-- Strategy 3 runs iff strategies 1 and 2 both left `sizeChart` null. -/
def ranBodyTextScan (d : Doc) : Bool :=
  ranSizeElemScan d && (sizeElemStrategyAux d.sizeElements).1.isNone

/-- Strategy 4 runs iff the chain left `sizeChart` null or with zero rows. -/
def ranAIFallback (d : Doc) : Bool :=
  match (chainState d).1 with
  | none => true
  | some c => c.rows.isEmpty

/-- Rows of a strategy's value; a strategy that never assigned produces the
canonical "nothing". -/
def producedRowsOf : Option Chart → List Row
  | none => []
  | some c => c.rows

def tableScanProduced (d : Doc) : List Row :=
  producedRowsOf (tableStrategyAux d.tables).1

/-- What strategy 2 actually produced during the run ([] when it did not run). -/
def sizeElemProduced (d : Doc) : List Row :=
  if ranSizeElemScan d then producedRowsOf (sizeElemStrategyAux d.sizeElements).1 else []

/-- What strategy 3 actually produced during the run ([] when it did not run). -/
def bodyTextProduced (d : Doc) : List Row :=
  if ranBodyTextScan d then producedRowsOf (bodyTextStrategy d.bodyText).1 else []

/-! ## The recommendation engine -/

set_option linter.unusedVariables false

/-- The fixed fallback object of `getSizeRecommendation`'s catch block. -/
def fallbackRecommendation : Json :=
  .obj [("recommended_size", .str "M"),
        ("confidence", .str "low"),
        ("reasoning", .str "Unable to process size chart. Defaulting to medium size. Please verify with the size chart manually."),
        ("alternative_size", .str "L"),
        ("fit_notes", .str "AI recommendation unavailable")]

/-- `getSizeRecommendation(measurements, sizeChart)`.  The two data arguments
only feed the prompt (which the reply parameter abstracts).  A missing
credential throws before the model call; a model error, a reply with no JSON
object span, and a JSON decode failure all throw inside the try block; the
catch returns the fixed fallback.  A successfully decoded JSON object is
returned as-is, with no validation of any field.  (The measurement and chart
arguments are deliberately unused here: their only consumer is the prompt.) -/
def getSizeRecommendation (measurements sizeChart : Json) (apiKey : Option String)
    (reply : ModelOutcome) : Json :=
  if jsFalsyKey apiKey then fallbackRecommendation
  else
    match reply with
    | .err _ => fallbackRecommendation
    | .ok text =>
      match extractJsonSpan text.data with
      | none => fallbackRecommendation
      | some span =>
        match jsonParse span with
        | none => fallbackRecommendation
        | some j => j

/-! ## The HTTP handlers -/

structure HttpResponse where
  status : Nat
  body : Json
  deriving Repr, DecidableEq

def urlRequiredBody : Json :=
  .obj [("success", .bool false), ("error", .str "URL is required")]

def measurementsRequiredBody : Json :=
  .obj [("success", .bool false), ("error", .str "Measurements are required")]

def chartRequiredBody : Json :=
  .obj [("success", .bool false), ("error", .str "Valid size chart is required")]

/-- Serialization of an `ExtractionResult` by `res.json(result)`, preserving
the construction order of the two object literals of the source. -/
def ExtractionResult.toJson (r : ExtractionResult) : Json :=
  match r.error with
  | some e => .obj [("success", .bool r.success), ("error", .str e),
                    ("sizeChart", r.sizeChart), ("url", r.url)]
  | none => .obj [("success", .bool r.success), ("sizeChart", r.sizeChart),
                  ("rawText", .str (r.rawText.getD "")), ("url", r.url)]

/-- `app.post('/scrape-size-chart')`.  The second component counts
`axios.get` attempts (0 when validation rejects the request, otherwise
exactly 1 — there is no retry).  `res.json` responds with status 200. -/
def scrapeHandler (body : Json) (fetch : FetchOutcome) (apiKey : Option String)
    (aiReply : ModelOutcome) : HttpResponse × Nat :=
  let url := jsField body "url"
  if !jsTruthyOpt url then (⟨400, urlRequiredBody⟩, 0)
  else (⟨200, (scrapeSizeChart (url.getD .null) fetch apiKey aiReply).toJson⟩, 1)

/-- `x.length === 0` on a JS value `x`: arrays and strings have numeric
lengths; a plain object only satisfies this when it carries an own `length`
property that is the number 0; on other values `length` is `undefined` and
the strict comparison is false. -/
def jsLengthIsZero : Json → Bool
  | .arr l => l.isEmpty
  | .str s => s.isEmpty
  | .obj fields =>
    match fields.lookup "length" with
    | some (.num lex) => numLexIsZero lex
    | _ => false
  | _ => false

/-- `app.post('/recommend-size')`.  The second component counts
`model.generateContent` invocations: 0 when a validation branch responds 400,
and inside the engine the call happens exactly when the credential check
passes. -/
def recommendHandler (body : Json) (apiKey : Option String)
    (reply : ModelOutcome) : HttpResponse × Nat :=
  let measurements := jsField body "measurements"
  if !jsTruthyOpt measurements then (⟨400, measurementsRequiredBody⟩, 0)
  else
    let sizeChart := jsField body "sizeChart"
    let chartInvalid :=
      !jsTruthyOpt sizeChart ||
        (let sc := sizeChart.getD .null
         !jsTruthyOpt (jsField sc "rows") || jsLengthIsZero ((jsField sc "rows").getD .null))
    if chartInvalid then (⟨400, chartRequiredBody⟩, 0)
    else
      (⟨200, getSizeRecommendation (measurements.getD .null) (sizeChart.getD .null) apiKey reply⟩,
        if jsFalsyKey apiKey then 0 else 1)

/-! ## Helper lemmas on the strategy chain -/

theorem chainState_s1 {d : Doc} {c : Chart} {r : String}
    (h : tableStrategyAux d.tables = (some c, r)) : chainState d = (some c, r) := by
  simp [chainState, h]

theorem chainState_s2 {d : Doc} {c : Chart} {r : String}
    (h1 : (tableStrategyAux d.tables).1 = none)
    (h2 : sizeElemStrategyAux d.sizeElements = (some c, r)) :
    chainState d = (some c, r) := by
  simp [chainState, h1, h2]

theorem chainState_s3 {d : Doc}
    (h1 : (tableStrategyAux d.tables).1 = none)
    (h2 : (sizeElemStrategyAux d.sizeElements).1 = none) :
    chainState d = bodyTextStrategy d.bodyText := by
  simp [chainState, h1, h2]

theorem scrape_ok_chart {url : Json} {d : Doc} {apiKey : Option String}
    {aiReply : ModelOutcome} {c : Chart} {r : String}
    (h : chainState d = (some c, r)) (hr : c.rows ≠ []) :
    scrapeSizeChart url (.ok d) apiKey aiReply =
      ⟨true, chartToJson c, some (strTake 2000 r), url, none⟩ := by
  have hne : c.rows.isEmpty = false := by
    cases hrows : c.rows with
    | nil => exact absurd hrows hr
    | cons a l => rfl
  simp [scrapeSizeChart, h, hne]

theorem scrape_ok_ai {url : Json} {d : Doc} {apiKey : Option String}
    {aiReply : ModelOutcome} (h : ranAIFallback d = true) :
    scrapeSizeChart url (.ok d) apiKey aiReply = aiBranchResult url d apiKey aiReply := by
  unfold ranAIFallback at h
  unfold scrapeSizeChart
  rcases hc : (chainState d).1 with _ | c
  · simp [hc]
  · rw [hc] at h
    have h' : c.rows.isEmpty = true := h
    simp [hc, h']

theorem scrape_ok_success {url : Json} {d : Doc} {apiKey : Option String}
    {aiReply : ModelOutcome} :
    (scrapeSizeChart url (.ok d) apiKey aiReply).success = true := by
  unfold scrapeSizeChart
  rcases hc : (chainState d).1 with _ | c
  · simp [hc, aiBranchResult]
  · cases he : c.rows.isEmpty <;> simp [hc, he, aiBranchResult]

/-- All failure modes of the engine's model call, as observed by the source:
a falsy credential, a thrown model call, a reply with no brace-delimited
span, or a decode failure on the span. -/
def modelCallFails (apiKey : Option String) (reply : ModelOutcome) : Prop :=
  jsFalsyKey apiKey = true
  ∨ (∃ msg, reply = .err msg)
  ∨ (∃ t, reply = .ok t ∧ extractJsonSpan t.data = none)
  ∨ (∃ t s, reply = .ok t ∧ extractJsonSpan t.data = some s ∧ jsonParse s = none)

theorem getRec_fails_eq_fallback {apiKey : Option String} {reply : ModelOutcome}
    (h : modelCallFails apiKey reply) (m chart : Json) :
    getSizeRecommendation m chart apiKey reply = fallbackRecommendation := by
  unfold getSizeRecommendation
  rcases h with hk | ⟨msg, rfl⟩ | ⟨t, rfl, hspan⟩ | ⟨t, s, rfl, hspan, hdec⟩
  · simp [hk]
  · cases hk : jsFalsyKey apiKey <;> simp [hk]
  · cases hk : jsFalsyKey apiKey <;> simp [hk, hspan]
  · cases hk : jsFalsyKey apiKey <;> simp [hk, hspan, hdec]

/-! ## The claims -/

/-- C2: for the input text `S: Chest 34-36, Waist 28-30` the pattern-based
text extractor is required to return exactly one row
`{Size: "S", Chest: "34-36", Waist: "28-30"}`.  The code returns zero rows:
the negated character class built from `sizes.join('|')` excludes the
letters x, s, m, l (and 2, 3, 4), so the captured measurement span after
`S: ` is just `Che` — truncated at the `s` of `Chest` — and no body-part
pattern can match inside it.  This theorem evaluates the code at the failing
input (the second conjunct exhibits the truncated capture). -/
theorem structured_text_c2_eval :
    parseStructuredText "S: Chest 34-36, Waist 28-30"
      = ⟨["Size", "Chest", "Waist", "Hip", "Shoulder"], []⟩
    ∧ sizeCapture "S".data "S: Chest 34-36, Waist 28-30".data = some "Che".data :=
  ⟨rfl, rfl⟩

/-- C7 counterexample: `tC7` is a keyword-matching table whose only content
row is its first row. -/
def tC7 : Table :=
  ⟨[["Size", "Chest"]], "size chest"⟩

/-- C7 counterexample: on a single-row table the first pass yields zero rows
and the repair pass — which the claim says treats every row as data with no
header-skip — also yields zero rows, because it applies the same `slice(1)`. -/
theorem parse_table_single_row_cex :
    tableKeywordMatch tC7 = true
    ∧ tableDataRows (tableHeaders tC7) (tC7.cells.drop 1) = []
    ∧ parseTable tC7 = ⟨["Size", "Chest"], []⟩ :=
  ⟨rfl, rfl, rfl⟩

/-- C7 amended: the second (repair) pass of `parseTable` selects the same
row set (`tr` versus `tbody tr, tr`, both matching every row) and applies
the same `slice(1)` header-skip, so it can never recover rows the first
pass missed: `parseTable` always returns exactly the first-pass rows, and a
table whose only row is its first yields zero rows. -/
theorem parse_table_repair_is_noop (t : Table) :
    parseTable t = ⟨tableHeaders t, tableDataRows (tableHeaders t) (t.cells.drop 1)⟩ := by
  simp [parseTable, ite_self]

/-- C7 amended witness: the single-row table, where the first pass yields
zero rows and the repair pass recovers nothing. -/
theorem parse_table_repair_is_noop_w :
    parseTable ⟨[["Size", "Chest"]], "size chest"⟩
      = ⟨tableHeaders ⟨[["Size", "Chest"]], "size chest"⟩,
         tableDataRows (tableHeaders ⟨[["Size", "Chest"]], "size chest"⟩)
           ((Table.mk [["Size", "Chest"]] "size chest").cells.drop 1)⟩ :=
  parse_table_repair_is_noop ⟨[["Size", "Chest"]], "size chest"⟩

/-- A JS string value. -/
def isStringJson : Json → Bool
  | .str _ => true
  | _ => false

/-- A JS record whose every field is a string (`Record<string, string>`). -/
def isStringRecord : Json → Bool
  | .obj fields => fields.all (fun p => isStringJson p.2)
  | _ => false

/-- The SizeChart data-model invariant as a shape on JS values:
`{headers: string[], rows: Array<Record<string,string>>}` (both fields
present, both arrays, with the required element shapes). -/
def isWellFormedChartJson : Json → Bool
  | .obj fields =>
    match fields.lookup "headers", fields.lookup "rows" with
    | some (.arr hs), some (.arr rs) => hs.all isStringJson && rs.all isStringRecord
    | _, _ => false
  | _ => false

/-- C10: when the AI fallback's reply parses to a JSON object that lacks the
SizeChart shape (here `{"headers": []}` with no `rows` field at all), the
object is returned unvalidated and becomes the `sizeChart` of a
`success: true` extraction result, violating the data-model invariant. -/
theorem ai_chart_unvalidated :
    (scrapeSizeChart (.str "https://example.com") (.ok ⟨[], [], ""⟩) (some "key")
        (.ok "\x7b\"headers\": []\x7d")).success = true
    ∧ (scrapeSizeChart (.str "https://example.com") (.ok ⟨[], [], ""⟩) (some "key")
        (.ok "\x7b\"headers\": []\x7d")).sizeChart = .obj [("headers", .arr [])]
    ∧ jsField (scrapeSizeChart (.str "https://example.com") (.ok ⟨[], [], ""⟩) (some "key")
        (.ok "\x7b\"headers\": []\x7d")).sizeChart "rows" = none
    ∧ isWellFormedChartJson (scrapeSizeChart (.str "https://example.com") (.ok ⟨[], [], ""⟩)
        (some "key") (.ok "\x7b\"headers\": []\x7d")).sizeChart = false :=
  ⟨rfl, rfl, rfl, rfl⟩

/-- C1: the strategies run in fixed order with short-circuit: the
keyword-region scanner runs only if the table scanner produced an empty
chart; the global pattern extractor runs only if both earlier strategies
produced empty charts; the AI fallback runs only if all three produced empty
charts; and whenever the chain holds a chart with at least one row, that
chart (produced by the first succeeding strategy, which the last two
conjuncts show is never overridden) is the returned `sizeChart` and the AI
fallback does not run. -/
theorem extraction_strategy_order (d : Doc) (url : Json) (apiKey : Option String)
    (aiReply : ModelOutcome) :
    (ranSizeElemScan d = true → tableScanProduced d = [])
    ∧ (ranBodyTextScan d = true → tableScanProduced d = [] ∧ sizeElemProduced d = [])
    ∧ (ranAIFallback d = true →
        tableScanProduced d = [] ∧ sizeElemProduced d = [] ∧ bodyTextProduced d = [])
    ∧ (∀ c, (chainState d).1 = some c → c.rows ≠ [] →
        ranAIFallback d = false
        ∧ (scrapeSizeChart url (.ok d) apiKey aiReply).sizeChart = chartToJson c)
    ∧ (∀ c r, tableStrategyAux d.tables = (some c, r) → chainState d = (some c, r))
    ∧ (∀ c r, ranSizeElemScan d = true → sizeElemStrategyAux d.sizeElements = (some c, r) →
        chainState d = (some c, r)) := by
  have hrowsEmpty : ∀ c : Chart, c.rows.isEmpty = true → c.rows = [] := by
    intro c h
    cases hre : c.rows with
    | nil => rfl
    | cons a l => rw [hre] at h; exact absurd h (by simp)
  refine ⟨?_, ?_, ?_, ?_, ?_, ?_⟩
  · intro h
    unfold ranSizeElemScan at h
    rw [Option.isNone_iff_eq_none] at h
    simp [tableScanProduced, h, producedRowsOf]
  · intro h
    unfold ranBodyTextScan at h
    rw [Bool.and_eq_true] at h
    rcases h with ⟨h2, h3⟩
    have h2' : (tableStrategyAux d.tables).1 = none := Option.isNone_iff_eq_none.mp h2
    rw [Option.isNone_iff_eq_none] at h3
    constructor
    · simp [tableScanProduced, h2', producedRowsOf]
    · simp [sizeElemProduced, h2, h3, producedRowsOf]
  · intro h
    unfold ranAIFallback at h
    rcases h1 : tableStrategyAux d.tables with ⟨c1, r1⟩
    cases c1 with
    | some c =>
      have hch : chainState d = (some c, r1) := chainState_s1 h1
      rw [hch] at h
      have hc : c.rows = [] := hrowsEmpty c h
      refine ⟨?_, ?_, ?_⟩
      · simp [tableScanProduced, h1, producedRowsOf, hc]
      · simp [sizeElemProduced, ranSizeElemScan, h1]
      · simp [bodyTextProduced, ranBodyTextScan, ranSizeElemScan, h1]
    | none =>
      have hrun2 : ranSizeElemScan d = true := by simp [ranSizeElemScan, h1]
      rcases h2 : sizeElemStrategyAux d.sizeElements with ⟨c2, r2⟩
      cases c2 with
      | some c =>
        have hch : chainState d = (some c, r2) := chainState_s2 (by rw [h1]) h2
        rw [hch] at h
        have hc : c.rows = [] := hrowsEmpty c h
        refine ⟨?_, ?_, ?_⟩
        · simp [tableScanProduced, h1, producedRowsOf]
        · simp [sizeElemProduced, hrun2, h2, producedRowsOf, hc]
        · simp [bodyTextProduced, ranBodyTextScan, ranSizeElemScan, h1, h2]
      | none =>
        have hrun3 : ranBodyTextScan d = true := by
          simp [ranBodyTextScan, ranSizeElemScan, h1, h2]
        have hch : chainState d = bodyTextStrategy d.bodyText :=
          chainState_s3 (by rw [h1]) (by rw [h2])
        refine ⟨by simp [tableScanProduced, h1, producedRowsOf], ?_, ?_⟩
        · simp [sizeElemProduced, hrun2, h2, producedRowsOf]
        · rcases h3 : bodyTextStrategy d.bodyText with ⟨c3, r3⟩
          cases c3 with
          | some c =>
            rw [hch, h3] at h
            have hc : c.rows = [] := hrowsEmpty c h
            simp [bodyTextProduced, hrun3, h3, producedRowsOf, hc]
          | none => simp [bodyTextProduced, hrun3, h3, producedRowsOf]
  · intro c hc hrows
    rcases hch : chainState d with ⟨cc, rr⟩
    rw [hch] at hc
    simp only [] at hc
    subst hc
    have hne : c.rows.isEmpty = false := by
      cases hre : c.rows with
      | nil => exact absurd hre hrows
      | cons a l => rfl
    constructor
    · unfold ranAIFallback
      rw [hch]
      exact hne
    · rw [scrape_ok_chart hch hrows]
  · intro c r h
    exact chainState_s1 h
  · intro c r hrun h
    unfold ranSizeElemScan at hrun
    exact chainState_s2 (Option.isNone_iff_eq_none.mp hrun) h

/-- C1 witness: the theorem applied to a concrete document (no tables, one
qualifying size element whose text parses to one row), with its inner
implications discharged at that document. -/
theorem extraction_strategy_order_w :
    ranSizeElemScan ⟨[], [⟨"size s: hip 56-78 cm", []⟩], ""⟩ = true
    ∧ tableScanProduced ⟨[], [⟨"size s: hip 56-78 cm", []⟩], ""⟩ = []
    ∧ ranAIFallback ⟨[], [⟨"size s: hip 56-78 cm", []⟩], ""⟩ = false
    ∧ (scrapeSizeChart (.str "u") (.ok ⟨[], [⟨"size s: hip 56-78 cm", []⟩], ""⟩) none
        (.err "down")).sizeChart
        = chartToJson ⟨structuredHeaders, [[("Size", "S"), ("Hip", "56-78")]]⟩ := by
  have h := extraction_strategy_order ⟨[], [⟨"size s: hip 56-78 cm", []⟩], ""⟩ (.str "u")
    none (.err "down")
  have h4 := h.2.2.2.1 ⟨structuredHeaders, [[("Size", "S"), ("Hip", "56-78")]]⟩ rfl
    (by decide)
  exact ⟨rfl, h.1 rfl, h4.1, h4.2⟩

/-- C3: whatever the measurements and whatever the (≥ 1 row) chart, every
model-call failure mode — falsy credential, thrown call, reply without a
JSON object, JSON decode failure — is absorbed: `getSizeRecommendation`
returns exactly the fixed fallback object, deterministically. -/
theorem recommendation_fallback_on_failure (m chart : Json) (apiKey : Option String)
    (reply : ModelOutcome)
    (hrow : ∃ r rs, jsField chart "rows" = some (.arr (r :: rs)))
    (hfail : modelCallFails apiKey reply) :
    getSizeRecommendation m chart apiKey reply = fallbackRecommendation :=
  getRec_fails_eq_fallback hfail m chart

/-- C3 witness: a chart with one row, credential absent. -/
theorem recommendation_fallback_on_failure_w :
    getSizeRecommendation .null (.obj [("rows", .arr [.obj []])]) none (.err "network error")
      = fallbackRecommendation :=
  recommendation_fallback_on_failure .null (.obj [("rows", .arr [.obj []])]) none
    (.err "network error") ⟨.obj [], [], rfl⟩ (Or.inl rfl)

/-- C4: a successful fetch always yields `success: true` (a "not found"
outcome is never `success: false`); when the structural strategies found
nothing and the AI fallback reports the canonical empty chart, that empty
chart is the returned `sizeChart`; and each failure mode of the AI fallback
extractor (falsy credential, thrown model call, reply without a JSON span,
decode failure) yields the canonical empty chart rather than an exception. -/
theorem extraction_not_found_is_success (url : Json) (d : Doc) (apiKey : Option String)
    (aiReply : ModelOutcome) :
    (scrapeSizeChart url (.ok d) apiKey aiReply).success = true
    ∧ (ranAIFallback d = true → extractSizeChartWithAI apiKey aiReply = emptyChartJson →
        (scrapeSizeChart url (.ok d) apiKey aiReply).sizeChart = emptyChartJson)
    ∧ (jsFalsyKey apiKey = true → extractSizeChartWithAI apiKey aiReply = emptyChartJson)
    ∧ (∀ msg, extractSizeChartWithAI apiKey (.err msg) = emptyChartJson)
    ∧ (∀ t, extractJsonSpan t.data = none →
        extractSizeChartWithAI apiKey (.ok t) = emptyChartJson)
    ∧ (∀ t s, extractJsonSpan t.data = some s → jsonParse s = none →
        extractSizeChartWithAI apiKey (.ok t) = emptyChartJson) := by
  refine ⟨scrape_ok_success, ?_, ?_, ?_, ?_, ?_⟩
  · intro hran hempty
    rw [scrape_ok_ai hran]
    simp [aiBranchResult, hempty, jsTruthy, emptyChartJson]
  · intro hk
    simp [extractSizeChartWithAI, hk]
  · intro msg
    cases hk : jsFalsyKey apiKey <;> simp [extractSizeChartWithAI, hk]
  · intro t hspan
    cases hk : jsFalsyKey apiKey <;> simp [extractSizeChartWithAI, hk, hspan]
  · intro t s hspan hdec
    cases hk : jsFalsyKey apiKey <;> simp [extractSizeChartWithAI, hk, hspan, hdec]

/-- C4 witness: an entirely empty page, credential absent. -/
theorem extraction_not_found_is_success_w :
    (scrapeSizeChart (.str "u") (.ok ⟨[], [], ""⟩) none (.err "down")).success = true
    ∧ (scrapeSizeChart (.str "u") (.ok ⟨[], [], ""⟩) none (.err "down")).sizeChart
        = emptyChartJson := by
  have h := extraction_not_found_is_success (.str "u") ⟨[], [], ""⟩ none (.err "down")
  exact ⟨h.1, h.2.1 rfl rfl⟩

/-- C6: for the extract operation, a missing (falsy) `url` field responds
HTTP 400 with the field-specific error and no fetch is attempted, while a
request whose fetch throws responds HTTP 200 with `success: false` carrying
the underlying message, after exactly one fetch attempt (no retry in either
case). -/
theorem scrape_endpoint_error_distinction (body : Json) (fetch : FetchOutcome)
    (apiKey : Option String) (aiReply : ModelOutcome) :
    (jsTruthyOpt (jsField body "url") = false →
      scrapeHandler body fetch apiKey aiReply = (⟨400, urlRequiredBody⟩, 0))
    ∧ (∀ u msg, jsField body "url" = some u → jsTruthy u = true →
        scrapeHandler body (.err msg) apiKey aiReply =
          (⟨200, .obj [("success", .bool false), ("error", .str msg),
                       ("sizeChart", emptyChartJson), ("url", u)]⟩, 1)) := by
  constructor
  · intro h
    simp [scrapeHandler, h]
  · intro u msg hu htruthy
    simp [scrapeHandler, hu, jsTruthyOpt, htruthy, scrapeSizeChart, ExtractionResult.toJson]

/-- C6 witness: the 400 branch on `{}` and the 200 branch on a failing fetch. -/
theorem scrape_endpoint_error_distinction_w :
    scrapeHandler (.obj []) (.err "boom") none (.err "") = (⟨400, urlRequiredBody⟩, 0)
    ∧ scrapeHandler (.obj [("url", .str "http://x")]) (.err "boom") none (.err "") =
        (⟨200, .obj [("success", .bool false), ("error", .str "boom"),
                     ("sizeChart", emptyChartJson), ("url", .str "http://x")]⟩, 1) := by
  constructor
  · exact (scrape_endpoint_error_distinction (.obj []) (.err "boom") none (.err "")).1 rfl
  · exact (scrape_endpoint_error_distinction (.obj [("url", .str "http://x")])
      (.err "boom") none (.err "")).2 (.str "http://x") "boom" rfl rfl

/-- C5 counterexample: a request whose `sizeChart` is missing (so the
claim's precondition holds) but whose `measurements` is also missing is
answered 400 with `Measurements are required` — not with the claimed body
`{success: false, error: "Valid size chart is required"}` — because the
measurements check runs first. -/
theorem recommend_mixed_missing_cex :
    recommendHandler (.obj []) (some "key") (.ok "irrelevant")
      = (⟨400, measurementsRequiredBody⟩, 0)
    ∧ measurementsRequiredBody ≠ chartRequiredBody :=
  ⟨rfl, by decide⟩

/-- C5 amended: for every request whose `measurements` field is present
(truthy), a `sizeChart` that is missing/falsy, has no (or a falsy) `rows`
field, or has `rows` equal to the empty list is answered HTTP 400 with
`{success: false, error: "Valid size chart is required"}` and the model is
never invoked (invocation count 0).  (When `measurements` is also
missing/falsy the handler instead answers 400 `Measurements are required`,
still without invoking the model.) -/
theorem recommend_chart_validation (body : Json) (apiKey : Option String)
    (reply : ModelOutcome)
    (hm : jsTruthyOpt (jsField body "measurements") = true)
    (hc : jsTruthyOpt (jsField body "sizeChart") = false
        ∨ jsTruthyOpt (jsField ((jsField body "sizeChart").getD .null) "rows") = false
        ∨ jsField ((jsField body "sizeChart").getD .null) "rows" = some (.arr [])) :
    recommendHandler body apiKey reply = (⟨400, chartRequiredBody⟩, 0) := by
  rcases hc with h | h | h <;> simp [recommendHandler, hm, h, jsTruthy, jsLengthIsZero]

/-- C5 witness: measurements present, `rows` empty. -/
theorem recommend_chart_validation_w :
    recommendHandler
        (.obj [("measurements", .obj [("height_cm", .num "170")]),
               ("sizeChart", .obj [("headers", .arr []), ("rows", .arr [])])])
        (some "key") (.err "e")
      = (⟨400, chartRequiredBody⟩, 0) :=
  recommend_chart_validation _ (some "key") (.err "e") rfl (Or.inr (Or.inr rfl))

/-- Strategy-2 loop: a prefix of non-qualifying candidates is skipped. -/
theorem sizeElemStrategyAux_skip (pre rest : List SizeElem)
    (h : ∀ f ∈ pre, elemQualifies f = false) :
    sizeElemStrategyAux (pre ++ rest) = sizeElemStrategyAux rest := by
  induction pre with
  | nil => rfl
  | cons e pre ih =>
    have he : elemQualifies e = false := h e (List.mem_cons_self e pre)
    rw [List.cons_append]
    have step : sizeElemStrategyAux (e :: (pre ++ rest)) = sizeElemStrategyAux (pre ++ rest) := by
      conv_lhs => unfold sizeElemStrategyAux
      rw [he]
      simp
    rw [step]
    exact ih (fun f hf => h f (List.mem_cons_of_mem e hf))

/-- C8 counterexample: the first qualifying candidate holds a nested table
that parses to zero rows; the scanner does not defer — it stops there, so
the second candidate (whose text parses to one row) and the global pattern
extractor are never attempted, and the AI fallback runs instead. -/
theorem nested_table_no_defer_cex :
    sizeElemStrategyAux
        [⟨"size 10 cm", [⟨[["Size", "Chest"]], "size chest"⟩]⟩,
         ⟨"size s: hip 56-78 cm", []⟩]
      = (some ⟨["Size", "Chest"], []⟩, "size 10 cm")
    ∧ (parseStructuredText "size s: hip 56-78 cm").rows ≠ []
    ∧ ranBodyTextScan ⟨[], [⟨"size 10 cm", [⟨[["Size", "Chest"]], "size chest"⟩]⟩,
         ⟨"size s: hip 56-78 cm", []⟩], ""⟩ = false
    ∧ ranAIFallback ⟨[], [⟨"size 10 cm", [⟨[["Size", "Chest"]], "size chest"⟩]⟩,
         ⟨"size s: hip 56-78 cm", []⟩], ""⟩ = true :=
  ⟨rfl, by decide, rfl, rfl⟩

/-- C8 amended: the keyword-region scanner accepts the parsed nested table of
the first qualifying candidate unconditionally — even when that parse has
zero rows.  It does not defer: the remaining candidates and the global
pattern extractor are skipped, and (the chart having zero rows) the AI
fallback extractor runs next. -/
theorem nested_table_break_unconditional (d : Doc) (pre post : List SizeElem)
    (e : SizeElem) (t : Table) (ts : List Table) (url : Json)
    (apiKey : Option String) (aiReply : ModelOutcome)
    (htab : d.tables = [])
    (helems : d.sizeElements = pre ++ e :: post)
    (hpre : ∀ f ∈ pre, elemQualifies f = false)
    (hq : elemQualifies e = true)
    (hinner : e.innerTables = t :: ts)
    (hempty : (parseTable t).rows = []) :
    sizeElemStrategyAux d.sizeElements = (some (parseTable t), lowerStr e.text)
    ∧ ranBodyTextScan d = false
    ∧ ranAIFallback d = true
    ∧ scrapeSizeChart url (.ok d) apiKey aiReply = aiBranchResult url d apiKey aiReply := by
  have hs2 : sizeElemStrategyAux d.sizeElements = (some (parseTable t), lowerStr e.text) := by
    rw [helems, sizeElemStrategyAux_skip pre _ hpre]
    unfold sizeElemStrategyAux
    rw [hq, hinner]
    simp
  have hs1 : tableStrategyAux d.tables = (none, "") := by rw [htab]; rfl
  have hchain : chainState d = (some (parseTable t), lowerStr e.text) :=
    chainState_s2 (by rw [hs1]) hs2
  have hranAI : ranAIFallback d = true := by
    unfold ranAIFallback
    rw [hchain]
    simp [hempty]
  refine ⟨hs2, ?_, hranAI, scrape_ok_ai hranAI⟩
  simp [ranBodyTextScan, ranSizeElemScan, hs1, hs2]

/-- C8 witness for the amended claim: the concrete document of the
counterexample, with the post-candidate showing what was skipped. -/
theorem nested_table_break_unconditional_w :
    sizeElemStrategyAux
        [⟨"size 10 cm", [⟨[["Size", "Chest"]], "size chest"⟩]⟩,
         ⟨"size s: hip 56-78 cm", []⟩]
      = (some (parseTable ⟨[["Size", "Chest"]], "size chest"⟩),
         lowerStr "size 10 cm")
    ∧ scrapeSizeChart (.str "u")
        (.ok ⟨[], [⟨"size 10 cm", [⟨[["Size", "Chest"]], "size chest"⟩]⟩,
          ⟨"size s: hip 56-78 cm", []⟩], ""⟩) none (.err "down")
      = aiBranchResult (.str "u")
          ⟨[], [⟨"size 10 cm", [⟨[["Size", "Chest"]], "size chest"⟩]⟩,
            ⟨"size s: hip 56-78 cm", []⟩], ""⟩ none (.err "down") := by
  have h := nested_table_break_unconditional
    ⟨[], [⟨"size 10 cm", [⟨[["Size", "Chest"]], "size chest"⟩]⟩,
      ⟨"size s: hip 56-78 cm", []⟩], ""⟩
    [] [⟨"size s: hip 56-78 cm", []⟩]
    ⟨"size 10 cm", [⟨[["Size", "Chest"]], "size chest"⟩]⟩
    ⟨[["Size", "Chest"]], "size chest"⟩ [] (.str "u") none (.err "down")
    rfl rfl (fun f hf => absurd hf (List.not_mem_nil f)) rfl rfl rfl
  exact ⟨h.1, h.2.2.2⟩

/-- C9 counterexample: a model reply carrying `confidence: "banana"` is
returned unchanged — the engine performs no validation, so the public
recommendation's `confidence` is outside the high/medium/low enumeration
and is not coerced to `low`. -/
theorem recommendation_confidence_cex :
    jsField (getSizeRecommendation .null (.obj [("rows", .arr [.obj []])]) (some "key")
        (.ok "\x7b\"confidence\": \"banana\"\x7d")) "confidence"
      = some (.str "banana")
    ∧ ("banana" ≠ "high" ∧ "banana" ≠ "medium" ∧ "banana" ≠ "low") :=
  ⟨rfl, by decide⟩

/-- C9 amended: `confidence` is guaranteed to be `"low"` only on the
fallback path (any model-call failure); on a successful parse the decoded
object is returned as-is, with no validation or coercion of any field, so
its `confidence` may be absent or arbitrary. -/
theorem recommendation_confidence_passthrough (m chart : Json) (apiKey : Option String)
    (reply : ModelOutcome) :
    (modelCallFails apiKey reply →
      jsField (getSizeRecommendation m chart apiKey reply) "confidence" = some (.str "low"))
    ∧ (∀ t s j, reply = .ok t → jsFalsyKey apiKey = false →
        extractJsonSpan t.data = some s → jsonParse s = some j →
        getSizeRecommendation m chart apiKey reply = j) := by
  constructor
  · intro hfail
    rw [getRec_fails_eq_fallback hfail]
    rfl
  · intro t s j hreply hkey hspan hdec
    subst hreply
    simp [getSizeRecommendation, hkey, hspan, hdec]

/-- C9 amended witness: both branches at concrete inputs. -/
theorem recommendation_confidence_passthrough_w :
    jsField (getSizeRecommendation .null .null none (.err "down")) "confidence"
      = some (.str "low")
    ∧ getSizeRecommendation .null .null (some "key")
        (.ok "\x7b\"confidence\": \"high\"\x7d")
      = .obj [("confidence", .str "high")] := by
  constructor
  · exact (recommendation_confidence_passthrough .null .null none (.err "down")).1
      (Or.inl rfl)
  · exact (recommendation_confidence_passthrough .null .null (some "key")
      (.ok "\x7b\"confidence\": \"high\"\x7d")).2
      "\x7b\"confidence\": \"high\"\x7d" "\x7b\"confidence\": \"high\"\x7d".data
      (.obj [("confidence", .str "high")]) rfl rfl rfl rfl

end ShoFit
